import Mathlib

set_option linter.unusedVariables false
set_option linter.unreachableTactic false
set_option linter.unusedTactic false

/-!
Verification development for the expression evaluator of the Leo compiler
(`compiler/src/constraints/expression.rs`).  The Rust code is embedded
shallowly: constrained gadget values become plain Lean data (booleans,
naturals), the scope store becomes an association list threaded through the
evaluator, and fallible operations return `Except`.  External collaborators
(the gadget library, the literal parser, the function invoker, scope-key
construction) are not part of the embedded file; they are modelled from the
specification and marked as such in their doc comments.
-/

namespace Leo

/-- Identifier from the resolved AST: a plain name. -/
structure Identifier where
  name : String
deriving BEq

/-- Function AST node; only the name is relevant to the embedded evaluator,
the body is consumed by the external function invoker. -/
structure Function_ where
  function_name : Identifier

/-- Language types, as used for expected-type hints.  Integer widths are not
distinguished by the embedding: the claims under study concern dispatch, not
fixed-width arithmetic. -/
inductive Type_ where
  | Boolean : Type_
  | IntegerType : Type_
  | FieldType : Type_
  | GroupType : Type_
  | Array (element : Type_) (dimensions : List Nat) : Type_
  | Circuit (id : Identifier) : Type_

/-- Member of a circuit definition: a typed data field or a (possibly
static) function. -/
inductive CircuitMember where
  | CircuitField (id : Identifier) (type_ : Type_) : CircuitMember
  | CircuitFunction (is_static : Bool) (function : Function_) : CircuitMember

/-- A circuit (record) definition: identifier plus ordered members. -/
structure Circuit where
  identifier : Identifier
  members : List CircuitMember

/-- The constrained-value tagged union of the evaluator.  Gadget handles are
modelled by their witness values: booleans by `Bool`, integers and field and
group elements by `Nat`. -/
inductive ConstrainedValue where
  | Boolean (b : Bool) : ConstrainedValue
  | Integer (n : Nat) : ConstrainedValue
  | FieldElement (n : Nat) : ConstrainedValue
  | GroupElement (n : Nat) : ConstrainedValue
  | Array (elements : List ConstrainedValue) : ConstrainedValue
  | CircuitDefinition (c : Circuit) : ConstrainedValue
  | CircuitExpression (id : Identifier)
      (members : List (Identifier × ConstrainedValue)) : ConstrainedValue
  | Function (circuit : Option Identifier) (f : Function_) : ConstrainedValue
  | Static (v : ConstrainedValue) : ConstrainedValue
  | Mutable (v : ConstrainedValue) : ConstrainedValue
  | Unresolved (s : String) : ConstrainedValue
  | Return (vs : List ConstrainedValue) : ConstrainedValue

/-- The closed error taxonomy of the expression evaluator. -/
inductive ExpressionError where
  | UndefinedIdentifier (s : String)
  | UndefinedArray (s : String)
  | UndefinedCircuit (s : String)
  | UndefinedCircuitObject (s : String)
  | UndefinedStaticFunction (circuit member : String)
  | UndefinedFunction (s : String)
  | IncompatibleTypes (s : String)
  | InvalidSpread (s : String)
  | InvalidLength (expected got : Nat)
  | InvalidCircuitAccess (s : String)
  | InvalidStaticFunction (s : String)
  | InvalidExponent (s : String)
  | IfElseConditional (s : String)
  | FunctionDidNotReturn (s : String)
  | ExpectedCircuitValue (s : String)
  | IntegerError (s : String)
  | FunctionError (s : String)
  | NotImplemented (s : String)

/-- Modelled from the spec: the Display rendering of a constrained value,
used only inside error payloads.  Primitive witnesses render their value;
aggregates render a coarse tag, which is all the claims depend on. -/
def valToString : ConstrainedValue → String
  | .Boolean b => toString b
  | .Integer n => toString n
  | .FieldElement n => toString n
  | .GroupElement n => toString n
  | .Array _ => "array"
  | .CircuitDefinition c => c.identifier.name
  | .CircuitExpression id _ => id.name
  | .Function _ f => f.function_name.name
  | .Static v => valToString v
  | .Mutable v => valToString v
  | .Unresolved s => s
  | .Return _ => "return"

/-- Modelled from the spec: Display rendering of a type, used in the
incompatible-type error payload of the array evaluator. -/
def typeToString : Type_ → String
  | .Boolean => "bool"
  | .IntegerType => "integer"
  | .FieldType => "fe"
  | .GroupType => "group"
  | .Array _ _ => "array"
  | .Circuit id => id.name

/-- Modelled from the spec: scope keys are dotted path strings composed as
parent plus a dot plus the local name (`new_scope`). -/
def new_scope (parent name : String) : String := parent ++ "." ++ name

/-- Modelled from the spec: `new_scope_from_variable` composes a scope with
the name of an identifier. -/
def new_scope_from_variable (scope : String) (v : Identifier) : String :=
  new_scope scope v.name

/-- The scope store: a mapping from scope-path keys to constrained values,
modelled as an association list where an insert prepends. -/
abbrev Store := List (String × ConstrainedValue)

/-- Modelled from the spec: store lookup `get(path)`. -/
def storeGet (st : Store) (key : String) : Option ConstrainedValue :=
  List.lookup key st

/-- Modelled from the spec: store write `store(path, value)`, an atomic
replacement keyed by scope path. -/
def storeInsert (st : Store) (key : String) (v : ConstrainedValue) : Store :=
  (key, v) :: st

/-- Numeric value of a single decimal digit character, if it is one. -/
def digitVal (c : Char) : Option Nat :=
  if c = '0' then some 0 else if c = '1' then some 1 else if c = '2' then some 2
  else if c = '3' then some 3 else if c = '4' then some 4 else if c = '5' then some 5
  else if c = '6' then some 6 else if c = '7' then some 7 else if c = '8' then some 8
  else if c = '9' then some 9 else none

/-- Accumulate a decimal digit list into a natural number. -/
def digitsToNat (acc : Nat) : List Char → Option Nat
  | [] => some acc
  | c :: rest =>
    match digitVal c with
    | some d => digitsToNat (acc * 10 + d) rest
    | none => none

/-- Parse a non-empty all-digit string as a natural number. -/
def parseNat (s : String) : Option Nat :=
  match s.data with
  | [] => none
  | cs => digitsToNat 0 cs

/-- Modelled from the spec: the literal parser `from_type(text, type)`.
A numeric literal parses under an integer, field or group expectation;
any other expectation or an unparseable text is an error surfaced to the
caller. -/
def ConstrainedValue.from_type (value : String) (t : Type_) :
    Except ExpressionError ConstrainedValue :=
  match t with
  | .IntegerType =>
    match parseNat value with
    | some n => .ok (.Integer n)
    | none => .error (.IncompatibleTypes (value ++ " is not an integer"))
  | .FieldType =>
    match parseNat value with
    | some n => .ok (.FieldElement n)
    | none => .error (.IncompatibleTypes (value ++ " is not a field element"))
  | .GroupType =>
    match parseNat value with
    | some n => .ok (.GroupElement n)
    | none => .error (.IncompatibleTypes (value ++ " is not a group element"))
  | t => .error (.IncompatibleTypes (value ++ " under " ++ typeToString t))

/-- Modelled from the spec: the literal parser `from_other(text, peer)`:
coerce a deferred numeric literal using the primitive class of the peer
value as the target type; failures propagate as incompatible-type errors. -/
def ConstrainedValue.from_other (value : String) (other : ConstrainedValue) :
    Except ExpressionError ConstrainedValue :=
  match other with
  | .Integer _ => ConstrainedValue.from_type value .IntegerType
  | .FieldElement _ => ConstrainedValue.from_type value .FieldType
  | .GroupElement _ => ConstrainedValue.from_type value .GroupType
  | other => .error (.IncompatibleTypes (value ++ " and " ++ valToString other))

/-- Modelled from the spec: the integer-add gadget, witness semantics. -/
def enforce_integer_add (a b : Nat) : Except ExpressionError ConstrainedValue :=
  .ok (.Integer (a + b))

/-- Modelled from the spec: the integer-sub gadget, witness semantics
(truncated natural subtraction stands in for the fixed-width gadget). -/
def enforce_integer_sub (a b : Nat) : Except ExpressionError ConstrainedValue :=
  .ok (.Integer (a - b))

/-- Modelled from the spec: the integer-mul gadget, witness semantics. -/
def enforce_integer_mul (a b : Nat) : Except ExpressionError ConstrainedValue :=
  .ok (.Integer (a * b))

/-- Modelled from the spec: the integer-div gadget; division by a zero
witness fails via the gadget, surfaced as an arithmetic error. -/
def enforce_integer_div (a b : Nat) : Except ExpressionError ConstrainedValue :=
  if b = 0 then .error (.IntegerError "division by zero")
  else .ok (.Integer (a / b))

/-- Modelled from the spec: the integer-pow gadget, witness semantics. -/
def enforce_integer_pow (a b : Nat) : Except ExpressionError ConstrainedValue :=
  .ok (.Integer (a ^ b))

/-- Modelled from the spec: the field-add gadget, witness semantics. -/
def enforce_field_add (a b : Nat) : Except ExpressionError ConstrainedValue :=
  .ok (.FieldElement (a + b))

/-- Modelled from the spec: the field-sub gadget, witness semantics. -/
def enforce_field_sub (a b : Nat) : Except ExpressionError ConstrainedValue :=
  .ok (.FieldElement (a - b))

/-- Modelled from the spec: the field-mul gadget, witness semantics. -/
def enforce_field_mul (a b : Nat) : Except ExpressionError ConstrainedValue :=
  .ok (.FieldElement (a * b))

/-- Modelled from the spec: the field-div gadget; division by a zero witness
fails via the gadget. -/
def enforce_field_div (a b : Nat) : Except ExpressionError ConstrainedValue :=
  if b = 0 then .error (.IntegerError "field division by zero")
  else .ok (.FieldElement (a / b))

/-- Modelled from the spec: the field-pow gadget, taking a field base and an
integer exponent. -/
def enforce_field_pow (a b : Nat) : Except ExpressionError ConstrainedValue :=
  .ok (.FieldElement (a ^ b))

/-- Modelled from the spec: group addition, witness semantics. -/
def evaluate_group_add (a b : Nat) : ConstrainedValue := .GroupElement (a + b)

/-- Modelled from the spec: group subtraction, witness semantics. -/
def evaluate_group_sub (a b : Nat) : ConstrainedValue := .GroupElement (a - b)

/-- Modelled from the spec: group equality, witness semantics. -/
def evaluate_group_eq (a b : Nat) : ConstrainedValue := .Boolean (a == b)

/-- Modelled from the spec: boolean equality, witness semantics. -/
def boolean_eq (a b : Bool) : ConstrainedValue := .Boolean (a == b)

/-- Modelled from the spec: integer equality, witness semantics. -/
def evaluate_integer_eq (a b : Nat) : Except ExpressionError ConstrainedValue :=
  .ok (.Boolean (a == b))

/-- Termination measure for the binary-operator dispatch matrices: one unit
per `Mutable` wrapper plus one unit for an `Unresolved` literal (which is
replaced by a coerced bare value on recursion). -/
def coercionRank : ConstrainedValue → Nat
  | .Mutable v => coercionRank v + 1
  | .Unresolved _ => 1
  | _ => 0

/-- A successful `from_type` coercion produces a bare primitive value.
Stated as a definition because the termination arguments of the dispatch
matrices below depend on it. -/
def coercionRank_from_type (s : String) (t : Type_) (v : ConstrainedValue)
    (h : ConstrainedValue.from_type s t = .ok v) : coercionRank v = 0 := by
  cases t <;> simp only [ConstrainedValue.from_type] at h <;>
    first
      | (cases hp : parseNat s <;> rw [hp] at h <;> cases h <;> rfl)
      | cases h

/-- A successful `from_other` coercion produces a bare primitive value.
Stated as a definition because the termination arguments of the dispatch
matrices below depend on it. -/
def coercionRank_from_other (s : String) (p v : ConstrainedValue)
    (h : ConstrainedValue.from_other s p = .ok v) : coercionRank v = 0 := by
  cases p <;> simp only [ConstrainedValue.from_other] at h <;>
    first
      | exact coercionRank_from_type _ _ _ h
      | cases h

/-- The add dispatch matrix (`enforce_add_expression`): integer, field and
group pairs invoke their gadget; a `Mutable` operand is unwrapped; an
`Unresolved` operand is coerced against its peer; anything else is an
incompatible-type error. -/
def enforce_add_expression (left right : ConstrainedValue) :
    Except ExpressionError ConstrainedValue :=
  match left, right with
  | .Integer num_1, .Integer num_2 => enforce_integer_add num_1 num_2
  | .FieldElement fe_1, .FieldElement fe_2 => enforce_field_add fe_1 fe_2
  | .GroupElement ge_1, .GroupElement ge_2 => .ok (evaluate_group_add ge_1 ge_2)
  | .Mutable val_1, val_2 => enforce_add_expression val_1 val_2
  | val_1, .Mutable val_2 => enforce_add_expression val_1 val_2
  | .Unresolved string, val_2 =>
    match h : ConstrainedValue.from_other string val_2 with
    | .error e => .error e
    | .ok val_1 => enforce_add_expression val_1 val_2
  | val_1, .Unresolved string =>
    match h : ConstrainedValue.from_other string val_1 with
    | .error e => .error e
    | .ok val_2 => enforce_add_expression val_1 val_2
  | val_1, val_2 =>
    .error (.IncompatibleTypes (valToString val_1 ++ " + " ++ valToString val_2))
termination_by coercionRank left + coercionRank right
decreasing_by
  all_goals simp only [coercionRank]
  all_goals try omega
  all_goals (first
    | (have hz := coercionRank_from_other _ _ _ h; omega))

/-- The sub dispatch matrix (`enforce_sub_expression`). -/
def enforce_sub_expression (left right : ConstrainedValue) :
    Except ExpressionError ConstrainedValue :=
  match left, right with
  | .Integer num_1, .Integer num_2 => enforce_integer_sub num_1 num_2
  | .FieldElement fe_1, .FieldElement fe_2 => enforce_field_sub fe_1 fe_2
  | .GroupElement ge_1, .GroupElement ge_2 => .ok (evaluate_group_sub ge_1 ge_2)
  | .Mutable val_1, val_2 => enforce_sub_expression val_1 val_2
  | val_1, .Mutable val_2 => enforce_sub_expression val_1 val_2
  | .Unresolved string, val_2 =>
    match h : ConstrainedValue.from_other string val_2 with
    | .error e => .error e
    | .ok val_1 => enforce_sub_expression val_1 val_2
  | val_1, .Unresolved string =>
    match h : ConstrainedValue.from_other string val_1 with
    | .error e => .error e
    | .ok val_2 => enforce_sub_expression val_1 val_2
  | val_1, val_2 =>
    .error (.IncompatibleTypes (valToString val_1 ++ " - " ++ valToString val_2))
termination_by coercionRank left + coercionRank right
decreasing_by
  all_goals simp only [coercionRank]
  all_goals try omega
  all_goals (first
    | (have hz := coercionRank_from_other _ _ _ h; omega))

/-- The mul dispatch matrix (`enforce_mul_expression`); the group-scalar
case is commented out in the source and therefore absent. -/
def enforce_mul_expression (left right : ConstrainedValue) :
    Except ExpressionError ConstrainedValue :=
  match left, right with
  | .Integer num_1, .Integer num_2 => enforce_integer_mul num_1 num_2
  | .FieldElement fe_1, .FieldElement fe_2 => enforce_field_mul fe_1 fe_2
  | .Mutable val_1, val_2 => enforce_mul_expression val_1 val_2
  | val_1, .Mutable val_2 => enforce_mul_expression val_1 val_2
  | .Unresolved string, val_2 =>
    match h : ConstrainedValue.from_other string val_2 with
    | .error e => .error e
    | .ok val_1 => enforce_mul_expression val_1 val_2
  | val_1, .Unresolved string =>
    match h : ConstrainedValue.from_other string val_1 with
    | .error e => .error e
    | .ok val_2 => enforce_mul_expression val_1 val_2
  | val_1, val_2 =>
    .error (.IncompatibleTypes (valToString val_1 ++ " * " ++ valToString val_2))
termination_by coercionRank left + coercionRank right
decreasing_by
  all_goals simp only [coercionRank]
  all_goals try omega
  all_goals (first
    | (have hz := coercionRank_from_other _ _ _ h; omega))

/-- The div dispatch matrix (`enforce_div_expression`). -/
def enforce_div_expression (left right : ConstrainedValue) :
    Except ExpressionError ConstrainedValue :=
  match left, right with
  | .Integer num_1, .Integer num_2 => enforce_integer_div num_1 num_2
  | .FieldElement fe_1, .FieldElement fe_2 => enforce_field_div fe_1 fe_2
  | .Mutable val_1, val_2 => enforce_div_expression val_1 val_2
  | val_1, .Mutable val_2 => enforce_div_expression val_1 val_2
  | .Unresolved string, val_2 =>
    match h : ConstrainedValue.from_other string val_2 with
    | .error e => .error e
    | .ok val_1 => enforce_div_expression val_1 val_2
  | val_1, .Unresolved string =>
    match h : ConstrainedValue.from_other string val_1 with
    | .error e => .error e
    | .ok val_2 => enforce_div_expression val_1 val_2
  | val_1, val_2 =>
    .error (.IncompatibleTypes (valToString val_1 ++ " / " ++ valToString val_2))
termination_by coercionRank left + coercionRank right
decreasing_by
  all_goals simp only [coercionRank]
  all_goals try omega
  all_goals (first
    | (have hz := coercionRank_from_other _ _ _ h; omega))

/-- The pow dispatch matrix (`enforce_pow_expression`): integer base with
integer exponent, or field base with integer exponent; after unwrapping and
coercion, a field exponent is the `InvalidExponent` error.  The fallback
error renders the operator as `*`, exactly as the source does. -/
def enforce_pow_expression (left right : ConstrainedValue) :
    Except ExpressionError ConstrainedValue :=
  match left, right with
  | .Integer num_1, .Integer num_2 => enforce_integer_pow num_1 num_2
  | .FieldElement fe_1, .Integer num_2 => enforce_field_pow fe_1 num_2
  | .Mutable val_1, val_2 => enforce_pow_expression val_1 val_2
  | val_1, .Mutable val_2 => enforce_pow_expression val_1 val_2
  | .Unresolved string, val_2 =>
    match h : ConstrainedValue.from_other string val_2 with
    | .error e => .error e
    | .ok val_1 => enforce_pow_expression val_1 val_2
  | val_1, .Unresolved string =>
    match h : ConstrainedValue.from_other string val_1 with
    | .error e => .error e
    | .ok val_2 => enforce_pow_expression val_1 val_2
  | _, .FieldElement num_2 => .error (.InvalidExponent (toString num_2))
  | val_1, val_2 =>
    .error (.IncompatibleTypes (valToString val_1 ++ " * " ++ valToString val_2))
termination_by coercionRank left + coercionRank right
decreasing_by
  all_goals simp only [coercionRank]
  all_goals try omega
  all_goals (first
    | (have hz := coercionRank_from_other _ _ _ h; omega))

/-- The equality dispatch matrix (`evaluate_eq_expression`): boolean,
integer and group pairs; field equality is commented out in the source. -/
def evaluate_eq_expression (left right : ConstrainedValue) :
    Except ExpressionError ConstrainedValue :=
  match left, right with
  | .Boolean bool_1, .Boolean bool_2 => .ok (boolean_eq bool_1 bool_2)
  | .Integer num_1, .Integer num_2 => evaluate_integer_eq num_1 num_2
  | .GroupElement ge_1, .GroupElement ge_2 => .ok (evaluate_group_eq ge_1 ge_2)
  | .Mutable val_1, val_2 => evaluate_eq_expression val_1 val_2
  | val_1, .Mutable val_2 => evaluate_eq_expression val_1 val_2
  | .Unresolved string, val_2 =>
    match h : ConstrainedValue.from_other string val_2 with
    | .error e => .error e
    | .ok val_1 => evaluate_eq_expression val_1 val_2
  | val_1, .Unresolved string =>
    match h : ConstrainedValue.from_other string val_1 with
    | .error e => .error e
    | .ok val_2 => evaluate_eq_expression val_1 val_2
  | val_1, val_2 =>
    .error (.IncompatibleTypes (valToString val_1 ++ " == " ++ valToString val_2))
termination_by coercionRank left + coercionRank right
decreasing_by
  all_goals simp only [coercionRank]
  all_goals try omega
  all_goals (first
    | (have hz := coercionRank_from_other _ _ _ h; omega))

/-- The geq dispatch matrix (`evaluate_geq_expression`): the field case is
commented out in the source, so only the resolution pipeline remains and
every resolved pair is an incompatible-type error. -/
def evaluate_geq_expression (left right : ConstrainedValue) :
    Except ExpressionError ConstrainedValue :=
  match left, right with
  | .Mutable val_1, val_2 => evaluate_geq_expression val_1 val_2
  | val_1, .Mutable val_2 => evaluate_geq_expression val_1 val_2
  | .Unresolved string, val_2 =>
    match h : ConstrainedValue.from_other string val_2 with
    | .error e => .error e
    | .ok val_1 => evaluate_geq_expression val_1 val_2
  | val_1, .Unresolved string =>
    match h : ConstrainedValue.from_other string val_1 with
    | .error e => .error e
    | .ok val_2 => evaluate_geq_expression val_1 val_2
  | val_1, val_2 =>
    .error (.IncompatibleTypes
      (valToString val_1 ++ " >= " ++ valToString val_2 ++ ", values must be fields"))
termination_by coercionRank left + coercionRank right
decreasing_by
  all_goals simp only [coercionRank]
  all_goals try omega
  all_goals (first
    | (have hz := coercionRank_from_other _ _ _ h; omega))

/-- The gt dispatch matrix (`evaluate_gt_expression`). -/
def evaluate_gt_expression (left right : ConstrainedValue) :
    Except ExpressionError ConstrainedValue :=
  match left, right with
  | .Mutable val_1, val_2 => evaluate_gt_expression val_1 val_2
  | val_1, .Mutable val_2 => evaluate_gt_expression val_1 val_2
  | .Unresolved string, val_2 =>
    match h : ConstrainedValue.from_other string val_2 with
    | .error e => .error e
    | .ok val_1 => evaluate_gt_expression val_1 val_2
  | val_1, .Unresolved string =>
    match h : ConstrainedValue.from_other string val_1 with
    | .error e => .error e
    | .ok val_2 => evaluate_gt_expression val_1 val_2
  | val_1, val_2 =>
    .error (.IncompatibleTypes
      (valToString val_1 ++ " > " ++ valToString val_2 ++ ", values must be fields"))
termination_by coercionRank left + coercionRank right
decreasing_by
  all_goals simp only [coercionRank]
  all_goals try omega
  all_goals (first
    | (have hz := coercionRank_from_other _ _ _ h; omega))

/-- The leq dispatch matrix (`evaluate_leq_expression`). -/
def evaluate_leq_expression (left right : ConstrainedValue) :
    Except ExpressionError ConstrainedValue :=
  match left, right with
  | .Mutable val_1, val_2 => evaluate_leq_expression val_1 val_2
  | val_1, .Mutable val_2 => evaluate_leq_expression val_1 val_2
  | .Unresolved string, val_2 =>
    match h : ConstrainedValue.from_other string val_2 with
    | .error e => .error e
    | .ok val_1 => evaluate_leq_expression val_1 val_2
  | val_1, .Unresolved string =>
    match h : ConstrainedValue.from_other string val_1 with
    | .error e => .error e
    | .ok val_2 => evaluate_leq_expression val_1 val_2
  | val_1, val_2 =>
    .error (.IncompatibleTypes
      (valToString val_1 ++ " <= " ++ valToString val_2 ++ ", values must be fields"))
termination_by coercionRank left + coercionRank right
decreasing_by
  all_goals simp only [coercionRank]
  all_goals try omega
  all_goals (first
    | (have hz := coercionRank_from_other _ _ _ h; omega))

/-- The lt dispatch matrix (`evaluate_lt_expression`). -/
def evaluate_lt_expression (left right : ConstrainedValue) :
    Except ExpressionError ConstrainedValue :=
  match left, right with
  | .Mutable val_1, val_2 => evaluate_lt_expression val_1 val_2
  | val_1, .Mutable val_2 => evaluate_lt_expression val_1 val_2
  | .Unresolved string, val_2 =>
    match h : ConstrainedValue.from_other string val_2 with
    | .error e => .error e
    | .ok val_1 => evaluate_lt_expression val_1 val_2
  | val_1, .Unresolved string =>
    match h : ConstrainedValue.from_other string val_1 with
    | .error e => .error e
    | .ok val_2 => evaluate_lt_expression val_1 val_2
  | val_1, val_2 =>
    .error (.IncompatibleTypes
      (valToString val_1 ++ " < " ++ valToString val_2 ++ ", values must be fields"))
termination_by coercionRank left + coercionRank right
decreasing_by
  all_goals simp only [coercionRank]
  all_goals try omega
  all_goals (first
    | (have hz := coercionRank_from_other _ _ _ h; omega))

/-- The ten binary operators whose evaluators live in the embedded file. -/
inductive BinOp where
  | Add | Sub | Mul | Div | Pow | Eq | Geq | Gt | Leq | Lt

/-- Route a binary operator to its dispatch matrix, mirroring the binary
cases of `enforce_expression`. -/
def evalBinop : BinOp → ConstrainedValue → ConstrainedValue →
    Except ExpressionError ConstrainedValue
  | .Add => enforce_add_expression
  | .Sub => enforce_sub_expression
  | .Mul => enforce_mul_expression
  | .Div => enforce_div_expression
  | .Pow => enforce_pow_expression
  | .Eq => evaluate_eq_expression
  | .Geq => evaluate_geq_expression
  | .Gt => evaluate_gt_expression
  | .Leq => evaluate_leq_expression
  | .Lt => evaluate_lt_expression

/-- Strip every `Mutable` wrapper from a value. -/
def unwrap : ConstrainedValue → ConstrainedValue
  | .Mutable v => unwrap v
  | v => v

mutual
/-- The expression AST fragment exercised by the claims: identifiers,
literals, the ten binary operators (one constructor carrying the operator
tag; `evalBinop` routes it to the per-operator dispatch matrix exactly as
the source dispatcher does), the ternary conditional, array literals with
spreads, circuit member and static accesses, and function calls. -/
inductive Expression where
  | Identifier (id : Identifier) : Expression
  | Integer (n : Nat) : Expression
  | FieldElement (n : Nat) : Expression
  | GroupElement (n : Nat) : Expression
  | Boolean (b : Bool) : Expression
  | Implicit (s : String) : Expression
  | Binary (op : BinOp) (left right : Expression) : Expression
  | IfElse (first second third : Expression) : Expression
  | Array (elements : List SpreadOrExpression) : Expression
  | CircuitMemberAccess (circuit : Expression) (member : Identifier) : Expression
  | CircuitStaticFunctionAccess (circuit : Expression) (member : Identifier) : Expression
  | FunctionCall (function : Expression) (arguments : List Expression) : Expression

/-- An array-literal element: a spread of an existing array or a plain
expression. -/
inductive SpreadOrExpression where
  | Spread (e : Expression) : SpreadOrExpression
  | Expression (e : Expression) : SpreadOrExpression
end

/-- Modelled from the spec: Display rendering of an expression, used only
inside error payloads. -/
def exprToString : Expression → String
  | .Identifier id => id.name
  | _ => "expression"

/-- `get_integer_constant`: an integer literal becomes an integer witness. -/
def get_integer_constant (n : Nat) : ConstrainedValue := .Integer n

/-- `get_field_element_constant`: a field literal becomes a field witness. -/
def get_field_element_constant (n : Nat) : ConstrainedValue := .FieldElement n

/-- `get_boolean_constant`: a boolean literal becomes a boolean witness. -/
def get_boolean_constant (b : Bool) : ConstrainedValue := .Boolean b

/-- Modelled from the spec: the boolean conditional-select gadget. -/
def boolean_conditionally_select (cond first second : Bool) :
    Except ExpressionError Bool :=
  .ok (if cond then first else second)

/-- Modelled from the spec: the integer conditional-select gadget. -/
def integer_conditionally_select (cond : Bool) (first second : Nat) :
    Except ExpressionError Nat :=
  .ok (if cond then first else second)

/-- Modelled from the spec: `inner_dimension` peels one dimension off an
array type; the per-element expected type of `T[d1][d2]...` is `T[d2]...`. -/
def Type_.inner_dimension (t : Type_) (dimensions : List Nat) : Type_ :=
  match t with
  | .Array element _ =>
    if dimensions.length == 1 then element else .Array element dimensions.tail
  | t => t

/-- `enforce_number_implicit`: with exactly one expected type the literal is
parsed under it; otherwise it stays `Unresolved`. -/
def enforce_number_implicit (expected_types : List Type_) (value : String) :
    Except ExpressionError ConstrainedValue :=
  match expected_types with
  | [t] => ConstrainedValue.from_type value t
  | _ => .ok (.Unresolved value)

/-- `evaluate_identifier`: probe the function scope, then the file scope;
a miss is `UndefinedIdentifier`; a retrieved `Unresolved` literal is coerced
under the expected types. -/
def evaluate_identifier (file_scope function_scope : String)
    (expected_types : List Type_) (unresolved_identifier : Identifier)
    (st : Store) : Except ExpressionError ConstrainedValue :=
  let variable_name := new_scope function_scope unresolved_identifier.name
  let identifier_name := new_scope file_scope unresolved_identifier.name
  match (match storeGet st variable_name with
         | some value => some value
         | none => storeGet st identifier_name) with
  | none => .error (.UndefinedIdentifier unresolved_identifier.name)
  | some result_value =>
    match result_value with
    | .Unresolved string => enforce_number_implicit expected_types string
    | value => .ok value

/-- The member-resolution step of `enforce_circuit_access_expression`
(source lines 661 to 695): find the accessed member by identifier; when the
matched member is a plain function, copy every non-function non-static
sibling member into the method call scope; return the bound member value. -/
def circuit_access_match (file_scope : String) (circuit_name : Identifier)
    (members : List (Identifier × ConstrainedValue))
    (circuit_member : Identifier) (st : Store) :
    Except ExpressionError (ConstrainedValue × Store) :=
  match members.find? (fun member => member.1 == circuit_member) with
  | some member =>
    match member.2 with
    | .Function _circuit_identifier _function =>
      let st' := members.foldl (fun acc stored_member =>
        match stored_member.2 with
        | .Function _ _ => acc
        | .Static _ => acc
        | _ =>
          let circuit_scope := new_scope file_scope circuit_name.name
          let function_scope := new_scope circuit_scope member.1.name
          let field := new_scope function_scope stored_member.1.name
          storeInsert acc field stored_member.2) st
      .ok (member.2, st')
    | _ => .ok (member.2, st)
  | none => .error (.UndefinedCircuitObject circuit_member.name)

/-- Modelled from the spec: the callee outer scope of a function call is the
file scope, or the circuit scope when the function carries an owning
circuit identifier. -/
def function_outer_scope (file_scope : String) (circuit_identifier : Option Identifier) :
    String :=
  match circuit_identifier with
  | some cid => new_scope file_scope cid.name
  | none => file_scope

/-- Modelled from the spec: the opaque function-invocation collaborator
`invoke_function(outer_scope, function_scope, function, args)`, threading
the scope store and returning a value (normally a `Return` envelope) or a
function error. -/
abbrev InvokeFunction :=
  String → String → Function_ → List Expression → Store →
    Except String (ConstrainedValue × Store)

/-- The static-function search of `enforce_circuit_static_access_expression`
(source lines 719 to 747): the predicate tests only the static flag, never
the accessed name, and the non-static rejection branch inside the match is
unreachable because the search already filtered on the flag. -/
def circuit_static_match (circuit : Circuit) (circuit_member : Identifier) :
    Except ExpressionError ConstrainedValue :=
  match circuit.members.find? (fun member =>
    match member with
    | .CircuitFunction _static _function => _static
    | _ => false) with
  | some (.CircuitFunction _static function) =>
    if _static then
      .ok (.Function (some circuit.identifier) function)
    else
      .error (.InvalidStaticFunction function.function_name.name)
  | _ =>
    .error (.UndefinedStaticFunction circuit.identifier.name
      circuit_member.name)

/-- The call-completion step of `enforce_function_call_expression` (source
lines 767 to 790), applied to the evaluated callee value: the callee must
be a `Function` value; the invocation is delegated to the external
collaborator; a `Return` envelope with exactly one value is unwrapped, any
other `Return` envelope passes through unchanged, and a non-`Return` result
is `FunctionDidNotReturn`. -/
def enforce_function_call_result (invokeF : InvokeFunction)
    (file_scope function_scope : String) (function : Expression)
    (arguments : List Expression) (function_value : ConstrainedValue)
    (s1 : Store) : Except ExpressionError (ConstrainedValue × Store) :=
  match function_value with
  | .Function circuit_identifier function_call =>
    let outer_scope := function_outer_scope file_scope circuit_identifier
    match invokeF outer_scope function_scope function_call arguments s1 with
    | .ok (.Return return_values, s2) =>
      match return_values with
      | [value] => .ok (value, s2)
      | _ => .ok (.Return return_values, s2)
    | .ok (_, _s2) => .error (.FunctionDidNotReturn (exprToString function))
    | .error e => .error (.FunctionError e)
  | value => .error (.UndefinedFunction (valToString value))

mutual
/-- The expression dispatcher `enforce_expression`: structural recursion on
the AST node kind, threading the scope store.  The bodies of the source
helpers that recurse into subexpressions — `enforce_conditional_expression`
(the `IfElse` arm), `enforce_array_expression` (the `Array` arm),
`enforce_circuit_access_expression` and
`enforce_circuit_static_access_expression` (the access arms) and
`enforce_function_call_expression` (the `FunctionCall` arm) — are written
inline in their dispatch arms so that the recursion stays structural; their
non-recursive tails are the named functions `circuit_access_match`,
`circuit_static_match` and `enforce_function_call_result`. -/
def enforce_expression (invokeF : InvokeFunction)
    (file_scope function_scope : String) (expected_types : List Type_)
    (expression : Expression) (st : Store) :
    Except ExpressionError (ConstrainedValue × Store) :=
  match expression with
  | .Identifier unresolved_variable =>
    match evaluate_identifier file_scope function_scope expected_types
        unresolved_variable st with
    | .ok value => .ok (value, st)
    | .error e => .error e
  | .Integer n => .ok (get_integer_constant n, st)
  | .FieldElement n => .ok (get_field_element_constant n, st)
  | .GroupElement n => .ok (.GroupElement n, st)
  | .Boolean b => .ok (get_boolean_constant b, st)
  | .Implicit value =>
    match enforce_number_implicit expected_types value with
    | .ok v => .ok (v, st)
    | .error e => .error e
  | .Binary op left right =>
    match enforce_expression invokeF file_scope function_scope expected_types
        left st with
    | .error e => .error e
    | .ok (resolved_left, s1) =>
      match enforce_expression invokeF file_scope function_scope expected_types
          right s1 with
      | .error e => .error e
      | .ok (resolved_right, s2) =>
        match evalBinop op resolved_left resolved_right with
        | .ok v => .ok (v, s2)
        | .error e => .error e
  | .IfElse first second third =>
    match enforce_expression invokeF file_scope function_scope [Type_.Boolean]
        first st with
    | .error e => .error e
    | .ok (cond_value, s1) =>
      match cond_value with
      | .Boolean resolved_first =>
        match enforce_expression invokeF file_scope function_scope
            expected_types second s1 with
        | .error e => .error e
        | .ok (resolved_second, s2) =>
          match enforce_expression invokeF file_scope function_scope
              expected_types third s2 with
          | .error e => .error e
          | .ok (resolved_third, s3) =>
            match resolved_second, resolved_third with
            | .Boolean bool_2, .Boolean bool_3 =>
              match boolean_conditionally_select resolved_first bool_2
                  bool_3 with
              | .ok result => .ok (.Boolean result, s3)
              | .error e => .error e
            | .Integer integer_2, .Integer integer_3 =>
              match integer_conditionally_select resolved_first integer_2
                  integer_3 with
              | .ok result => .ok (.Integer result, s3)
              | .error e => .error e
            | _, _ =>
              .error (.NotImplemented
                "conditional select gadget not implemented between given types")
      | value => .error (.IfElseConditional (valToString value))
  | .Array array =>
    let expected_dimensions : List Nat := []
    match (match expected_types with
           | [] => .ok []
           | t0 :: _ =>
             match t0 with
             | .Array _type dimensions =>
               .ok [Type_.inner_dimension (.Array _type dimensions) dimensions]
             | _type => .error (.IncompatibleTypes (typeToString _type)) :
             Except ExpressionError (List Type_)) with
    | .error e => .error e
    | .ok expected_types =>
      match enforce_array_elements invokeF file_scope function_scope
          expected_types array [] st with
      | .error e => .error e
      | .ok (result, s1) =>
        match expected_dimensions.getLast? with
        | some expected =>
          if expected ≠ result.length then
            .error (.InvalidLength expected result.length)
          else .ok (.Array result, s1)
        | none => .ok (.Array result, s1)
  | .CircuitMemberAccess circuit_variable circuit_member =>
    match enforce_expression invokeF file_scope function_scope expected_types
        circuit_variable st with
    | .error e => .error e
    | .ok (circuit_value, s1) =>
      match circuit_value with
      | .CircuitExpression name members =>
        circuit_access_match file_scope name members circuit_member s1
      | .Mutable value =>
        match value with
        | .CircuitExpression name members =>
          circuit_access_match file_scope name members circuit_member s1
        | value => .error (.InvalidCircuitAccess (valToString value))
      | value => .error (.InvalidCircuitAccess (valToString value))
  | .CircuitStaticFunctionAccess circuit_identifier circuit_member =>
    match enforce_expression invokeF file_scope function_scope expected_types
        circuit_identifier st with
    | .error e => .error e
    | .ok (circuit_value, s1) =>
      match circuit_value with
      | .CircuitDefinition circuit =>
        match circuit_static_match circuit circuit_member with
        | .ok v => .ok (v, s1)
        | .error e => .error e
      | value => .error (.InvalidCircuitAccess (valToString value))
  | .FunctionCall function arguments =>
    match enforce_expression invokeF file_scope function_scope expected_types
        function st with
    | .error e => .error e
    | .ok (function_value, s1) =>
      enforce_function_call_result invokeF file_scope function_scope function
        arguments function_value s1

/-- The element loop of `enforce_array_expression`: a spread identifier is
looked up in function scope only and its array elements spliced in place;
a plain expression is evaluated under the narrowed expected types and
appended. -/
def enforce_array_elements (invokeF : InvokeFunction)
    (file_scope function_scope : String) (expected_types : List Type_)
    (array : List SpreadOrExpression) (result : List ConstrainedValue)
    (st : Store) :
    Except ExpressionError (List ConstrainedValue × Store) :=
  match array with
  | [] => .ok (result, st)
  | element :: rest =>
    match element with
    | .Spread spread =>
      match spread with
      | .Identifier spread_variable =>
        let array_name := new_scope_from_variable function_scope spread_variable
        match storeGet st array_name with
        | some value =>
          match value with
          | .Array array_value =>
            enforce_array_elements invokeF file_scope function_scope
              expected_types rest (result ++ array_value) st
          | value => .error (.InvalidSpread (valToString value))
        | none => .error (.UndefinedArray spread_variable.name)
      | value => .error (.InvalidSpread (exprToString value))
    | .Expression expression =>
      match enforce_expression invokeF file_scope function_scope expected_types
          expression st with
      | .error e => .error e
      | .ok (v, s1) =>
        enforce_array_elements invokeF file_scope function_scope expected_types
          rest (result ++ [v]) s1
end

/-- A function invoker that always fails; used to instantiate the external
collaborator at call-free concrete inputs. -/
def invokeNone : InvokeFunction := fun _ _ _ _ _ => .error "no invoker"

/-- A function invoker that returns an empty `Return` envelope and leaves
the store unchanged. -/
def invokeEmptyReturn : InvokeFunction := fun _ _ _ _ st => .ok (.Return [], st)

/-- A function invoker that returns a fixed single-value envelope. -/
def invokeOne : InvokeFunction := fun _ _ _ _ st => .ok (.Return [.Integer 42], st)

/-- A function invoker that returns a fixed two-value envelope. -/
def invokePair : InvokeFunction :=
  fun _ _ _ _ st => .ok (.Return [.Integer 1, .Integer 2], st)

/-- Whether the outermost constructor is the `Mutable` wrapper. -/
def isMutable : ConstrainedValue → Bool
  | .Mutable _ => true
  | _ => false

/-- The number of `Mutable` wrappers around a value. -/
def mutDepth : ConstrainedValue → Nat
  | .Mutable v => mutDepth v + 1
  | _ => 0

/-- A typed peer operand: a bare primitive-class value (boolean, integer,
field or group witness). -/
def isTypedPeer : ConstrainedValue → Prop
  | .Boolean _ => True
  | .Integer _ => True
  | .FieldElement _ => True
  | .GroupElement _ => True
  | _ => False

/-- A resolved operand: not a `Mutable` wrapper and not an `Unresolved`
deferred literal. -/
def resolvedValue : ConstrainedValue → Prop
  | .Mutable _ => False
  | .Unresolved _ => False
  | _ => True

@[simp] theorem parseNat_lit_one : parseNat "1" = some 1 := by rfl

@[simp] theorem parseNat_lit_two : parseNat "2" = some 2 := by rfl

@[simp] theorem parseNat_lit_three : parseNat "3" = some 3 := by rfl

@[simp] theorem parseNat_lit_seven : parseNat "7" = some 7 := by rfl

@[simp] theorem parseNat_lit_nine : parseNat "9" = some 9 := by rfl

@[simp] theorem natToString_five : toString (5 : Nat) = "5" := by rfl

theorem unwrap_mutable (v : ConstrainedValue) :
    unwrap (.Mutable v) = unwrap v := rfl

theorem mutDepth_mutable (v : ConstrainedValue) :
    mutDepth (.Mutable v) = mutDepth v + 1 := rfl

/-- Every value is a `Mutable` wrapper or is fixed by `unwrap`. -/
theorem mutable_or_fixed (v : ConstrainedValue) :
    (∃ w, v = .Mutable w) ∨ (unwrap v = v ∧ isMutable v = false) := by
  cases v <;> first | exact Or.inl ⟨_, rfl⟩ | exact Or.inr ⟨rfl, rfl⟩

theorem isMutable_unwrap_aux :
    ∀ n v, mutDepth v ≤ n → isMutable (unwrap v) = false := by
  intro n
  induction n with
  | zero =>
    intro v h
    rcases mutable_or_fixed v with ⟨w, rfl⟩ | ⟨hv, hm⟩
    · rw [mutDepth_mutable] at h; omega
    · rw [hv]; exact hm
  | succ n ih =>
    intro v h
    rcases mutable_or_fixed v with ⟨w, rfl⟩ | ⟨hv, hm⟩
    · rw [unwrap_mutable]; exact ih w (by rw [mutDepth_mutable] at h; omega)
    · rw [hv]; exact hm

/-- Unwrapping is idempotent. -/
theorem unwrap_idem (v : ConstrainedValue) : unwrap (unwrap v) = unwrap v := by
  rcases mutable_or_fixed (unwrap v) with ⟨w, hw⟩ | ⟨hv, _⟩
  · have hm := isMutable_unwrap_aux (mutDepth v) v le_rfl
    rw [hw] at hm
    exact absurd hm (by simp [isMutable])
  · exact hv

/-- A binary dispatch matrix that unwraps `Mutable` on the left with any
peer, and on the right against a non-`Mutable` peer, is invariant under
fully unwrapping both operands. -/
theorem binop_unwrap_of_steps
    (F : ConstrainedValue → ConstrainedValue → Except ExpressionError ConstrainedValue)
    (hleft : ∀ v r, F (.Mutable v) r = F v r)
    (hright : ∀ l u, isMutable l = false → F l (.Mutable u) = F l u)
    (l r : ConstrainedValue) : F l r = F (unwrap l) (unwrap r) := by
  suffices h : ∀ n l r, mutDepth l + mutDepth r ≤ n →
      F l r = F (unwrap l) (unwrap r) from h _ l r le_rfl
  intro n
  induction n with
  | zero =>
    intro l r h
    rcases mutable_or_fixed l with ⟨w, rfl⟩ | ⟨hl, _⟩
    · rw [mutDepth_mutable] at h; omega
    · rcases mutable_or_fixed r with ⟨u, rfl⟩ | ⟨hr, _⟩
      · rw [mutDepth_mutable] at h; omega
      · rw [hl, hr]
  | succ n ih =>
    intro l r h
    rcases mutable_or_fixed l with ⟨w, rfl⟩ | ⟨hl, hlm⟩
    · rw [hleft, unwrap_mutable]
      exact ih w r (by rw [mutDepth_mutable] at h; omega)
    · rcases mutable_or_fixed r with ⟨u, rfl⟩ | ⟨hr, _⟩
      · rw [hright l u hlm, unwrap_mutable]
        exact ih l u (by rw [mutDepth_mutable] at h; omega)
      · rw [hl, hr]

theorem add_mutable_left (v r : ConstrainedValue) :
    enforce_add_expression (.Mutable v) r = enforce_add_expression v r := by
  cases r <;> simp only [enforce_add_expression]

theorem add_mutable_right (l u : ConstrainedValue) (h : isMutable l = false) :
    enforce_add_expression l (.Mutable u) = enforce_add_expression l u := by
  cases l <;> simp [isMutable] at h <;> simp only [enforce_add_expression]

theorem sub_mutable_left (v r : ConstrainedValue) :
    enforce_sub_expression (.Mutable v) r = enforce_sub_expression v r := by
  cases r <;> simp only [enforce_sub_expression]

theorem sub_mutable_right (l u : ConstrainedValue) (h : isMutable l = false) :
    enforce_sub_expression l (.Mutable u) = enforce_sub_expression l u := by
  cases l <;> simp [isMutable] at h <;> simp only [enforce_sub_expression]

theorem mul_mutable_left (v r : ConstrainedValue) :
    enforce_mul_expression (.Mutable v) r = enforce_mul_expression v r := by
  cases r <;> simp only [enforce_mul_expression]

theorem mul_mutable_right (l u : ConstrainedValue) (h : isMutable l = false) :
    enforce_mul_expression l (.Mutable u) = enforce_mul_expression l u := by
  cases l <;> simp [isMutable] at h <;> simp only [enforce_mul_expression]

theorem div_mutable_left (v r : ConstrainedValue) :
    enforce_div_expression (.Mutable v) r = enforce_div_expression v r := by
  cases r <;> simp only [enforce_div_expression]

theorem div_mutable_right (l u : ConstrainedValue) (h : isMutable l = false) :
    enforce_div_expression l (.Mutable u) = enforce_div_expression l u := by
  cases l <;> simp [isMutable] at h <;> simp only [enforce_div_expression]

theorem pow_mutable_left (v r : ConstrainedValue) :
    enforce_pow_expression (.Mutable v) r = enforce_pow_expression v r := by
  cases r <;> simp only [enforce_pow_expression]

theorem pow_mutable_right (l u : ConstrainedValue) (h : isMutable l = false) :
    enforce_pow_expression l (.Mutable u) = enforce_pow_expression l u := by
  cases l <;> simp [isMutable] at h <;> simp only [enforce_pow_expression]

theorem eq_mutable_left (v r : ConstrainedValue) :
    evaluate_eq_expression (.Mutable v) r = evaluate_eq_expression v r := by
  cases r <;> simp only [evaluate_eq_expression]

theorem eq_mutable_right (l u : ConstrainedValue) (h : isMutable l = false) :
    evaluate_eq_expression l (.Mutable u) = evaluate_eq_expression l u := by
  cases l <;> simp [isMutable] at h <;> simp only [evaluate_eq_expression]

theorem geq_mutable_left (v r : ConstrainedValue) :
    evaluate_geq_expression (.Mutable v) r = evaluate_geq_expression v r := by
  cases r <;> simp only [evaluate_geq_expression]

theorem geq_mutable_right (l u : ConstrainedValue) (h : isMutable l = false) :
    evaluate_geq_expression l (.Mutable u) = evaluate_geq_expression l u := by
  cases l <;> simp [isMutable] at h <;> simp only [evaluate_geq_expression]

theorem gt_mutable_left (v r : ConstrainedValue) :
    evaluate_gt_expression (.Mutable v) r = evaluate_gt_expression v r := by
  cases r <;> simp only [evaluate_gt_expression]

theorem gt_mutable_right (l u : ConstrainedValue) (h : isMutable l = false) :
    evaluate_gt_expression l (.Mutable u) = evaluate_gt_expression l u := by
  cases l <;> simp [isMutable] at h <;> simp only [evaluate_gt_expression]

theorem leq_mutable_left (v r : ConstrainedValue) :
    evaluate_leq_expression (.Mutable v) r = evaluate_leq_expression v r := by
  cases r <;> simp only [evaluate_leq_expression]

theorem leq_mutable_right (l u : ConstrainedValue) (h : isMutable l = false) :
    evaluate_leq_expression l (.Mutable u) = evaluate_leq_expression l u := by
  cases l <;> simp [isMutable] at h <;> simp only [evaluate_leq_expression]

theorem lt_mutable_left (v r : ConstrainedValue) :
    evaluate_lt_expression (.Mutable v) r = evaluate_lt_expression v r := by
  cases r <;> simp only [evaluate_lt_expression]

theorem lt_mutable_right (l u : ConstrainedValue) (h : isMutable l = false) :
    evaluate_lt_expression l (.Mutable u) = evaluate_lt_expression l u := by
  cases l <;> simp [isMutable] at h <;> simp only [evaluate_lt_expression]

/-- Every binary dispatch matrix is invariant under unwrapping both
operands. -/
theorem evalBinop_unwrap (op : BinOp) (l r : ConstrainedValue) :
    evalBinop op l r = evalBinop op (unwrap l) (unwrap r) := by
  cases op <;> simp only [evalBinop] <;>
    first
      | exact binop_unwrap_of_steps _ add_mutable_left add_mutable_right l r
      | exact binop_unwrap_of_steps _ sub_mutable_left sub_mutable_right l r
      | exact binop_unwrap_of_steps _ mul_mutable_left mul_mutable_right l r
      | exact binop_unwrap_of_steps _ div_mutable_left div_mutable_right l r
      | exact binop_unwrap_of_steps _ pow_mutable_left pow_mutable_right l r
      | exact binop_unwrap_of_steps _ eq_mutable_left eq_mutable_right l r
      | exact binop_unwrap_of_steps _ geq_mutable_left geq_mutable_right l r
      | exact binop_unwrap_of_steps _ gt_mutable_left gt_mutable_right l r
      | exact binop_unwrap_of_steps _ leq_mutable_left leq_mutable_right l r
      | exact binop_unwrap_of_steps _ lt_mutable_left lt_mutable_right l r

/-- C4 counterexample: the claimed chain implies
`eval(unwrap(m) - x) = eval(x - m)`, which fails already for integers,
since subtraction is not commutative: with `m = Mutable (Integer 5)` and
`x = Integer 3` the left side is `Integer 2` and the right side is
`Integer 0`. -/
theorem C4_counterexample :
    enforce_sub_expression (.Mutable (.Integer 5)) (.Integer 3) ≠
      enforce_sub_expression (.Integer 3) (.Mutable (.Integer 5)) := by
  simp [enforce_sub_expression, enforce_integer_sub]

/-- C4, amended: for every `Mutable`-wrapped value and every peer operand
and every one of the ten binary operators, the wrapper is transparent in
either operand position — `eval(m op x) = eval(unwrap(m) op x)` and
`eval(x op m) = eval(x op unwrap(m))` — and unwrapping is idempotent. -/
theorem C4_mutable_transparency (op : BinOp) (m x : ConstrainedValue) :
    evalBinop op (.Mutable m) x = evalBinop op (unwrap (.Mutable m)) x ∧
    evalBinop op x (.Mutable m) = evalBinop op x (unwrap (.Mutable m)) ∧
    unwrap (unwrap (.Mutable m)) = unwrap (.Mutable m) := by
  refine ⟨?_, ?_, unwrap_idem _⟩
  · rw [evalBinop_unwrap op (.Mutable m) x,
      evalBinop_unwrap op (unwrap (.Mutable m)) x, unwrap_idem]
  · rw [evalBinop_unwrap op x (.Mutable m),
      evalBinop_unwrap op x (unwrap (.Mutable m)), unwrap_idem]

/-- C5: for every numeric-literal text, every typed peer operand and every
binary operator, evaluating with the `Unresolved` literal in either operand
position equals coercing the literal to the peer primitive class with
`from_other` and then evaluating the coerced value in that position; a
coercion failure propagates as the error. -/
theorem C5_unresolved_coercion (op : BinOp) (n : String)
    (p : ConstrainedValue) (h : isTypedPeer p) :
    evalBinop op (.Unresolved n) p =
      (ConstrainedValue.from_other n p).bind (fun v => evalBinop op v p) ∧
    evalBinop op p (.Unresolved n) =
      (ConstrainedValue.from_other n p).bind (fun v => evalBinop op p v) := by
  cases p <;> simp only [isTypedPeer] at h <;>
    (constructor <;> cases op <;>
      simp only [evalBinop, enforce_add_expression, enforce_sub_expression,
        enforce_mul_expression, enforce_div_expression, enforce_pow_expression,
        evaluate_eq_expression, evaluate_geq_expression,
        evaluate_gt_expression, evaluate_leq_expression,
        evaluate_lt_expression] <;>
      split <;> simp_all [Except.bind])

/-- C5 witness: the coercion equation instantiated at the add operator for
the literal text 2 against an integer peer. -/
theorem C5_unresolved_coercion_witness :
    evalBinop .Add (.Unresolved "2") (.Integer 3) =
      (ConstrainedValue.from_other "2" (.Integer 3)).bind
        (fun v => evalBinop .Add v (.Integer 3)) ∧
    evalBinop .Add (.Integer 3) (.Unresolved "2") =
      (ConstrainedValue.from_other "2" (.Integer 3)).bind
        (fun v => evalBinop .Add (.Integer 3) v) :=
  C5_unresolved_coercion .Add "2" (.Integer 3) trivial

/-- C3: on resolved operands, pow succeeds exactly for an integer base with
an integer exponent or a field base with an integer exponent; every
field-element exponent against a resolved base is the `InvalidExponent`
error; and the expression `2 ** field(5)` evaluates to
`InvalidExponent("5")`. -/
theorem C3_pow_dispatch :
    (∀ l r : ConstrainedValue, resolvedValue l → resolvedValue r →
      ((∃ v, enforce_pow_expression l r = .ok v) ↔
        (∃ a b, l = .Integer a ∧ r = .Integer b) ∨
        (∃ a b, l = .FieldElement a ∧ r = .Integer b))) ∧
    (∀ (l : ConstrainedValue) (x : Nat), resolvedValue l →
      enforce_pow_expression l (.FieldElement x) =
        .error (.InvalidExponent (toString x))) ∧
    (∀ (invokeF : InvokeFunction) (file_scope function_scope : String)
        (st : Store),
      enforce_expression invokeF file_scope function_scope []
        (.Binary .Pow (.Implicit "2") (.FieldElement 5)) st =
        .error (.InvalidExponent "5")) := by
  refine ⟨?_, ?_, ?_⟩
  · intro l r hl hr
    cases l <;> simp only [resolvedValue] at hl <;>
      cases r <;> simp only [resolvedValue] at hr <;>
        simp [enforce_pow_expression, enforce_integer_pow, enforce_field_pow]
  · intro l x hl
    cases l <;> simp only [resolvedValue] at hl <;>
      simp [enforce_pow_expression]
  · intro invokeF file_scope function_scope st
    simp [enforce_expression, evalBinop, enforce_number_implicit,
      enforce_pow_expression, get_field_element_constant,
      ConstrainedValue.from_other, ConstrainedValue.from_type]

/-- C3 witness: integer base and exponent succeed, and an integer base with
a field exponent is `InvalidExponent("5")`. -/
theorem C3_pow_dispatch_witness :
    (∃ v, enforce_pow_expression (.Integer 2) (.Integer 3) = .ok v) ∧
    enforce_pow_expression (.Integer 2) (.FieldElement 5) =
      .error (.InvalidExponent "5") := by
  constructor
  · exact (C3_pow_dispatch.1 (.Integer 2) (.Integer 3) trivial trivial).mpr
      (Or.inl ⟨2, 3, rfl, rfl⟩)
  · have h := C3_pow_dispatch.2.1 (.Integer 2) 5 trivial
    rw [natToString_five] at h
    exact h

/-- C6: the ternary evaluates its condition under expected types
`[Boolean]` and reports `IfElseConditional` when the resolved condition is
not boolean; with a boolean condition, both branches are evaluated under
the outer expected types and a conditional select joins boolean or integer
branch pairs; in particular `true ? 7 : 9` under `[u32]` is `Integer 7`. -/
theorem C6_conditional_select (invokeF : InvokeFunction)
    (file_scope function_scope : String) (expected_types : List Type_)
    (first second third : Expression) (st : Store) :
    (∀ v s1, enforce_expression invokeF file_scope function_scope
        [Type_.Boolean] first st = .ok (v, s1) →
      (∀ b, v ≠ .Boolean b) →
      enforce_expression invokeF file_scope function_scope expected_types
        (.IfElse first second third) st =
        .error (.IfElseConditional (valToString v))) ∧
    (∀ b s1 b2 s2 b3 s3,
      enforce_expression invokeF file_scope function_scope [Type_.Boolean]
        first st = .ok (.Boolean b, s1) →
      enforce_expression invokeF file_scope function_scope expected_types
        second s1 = .ok (.Boolean b2, s2) →
      enforce_expression invokeF file_scope function_scope expected_types
        third s2 = .ok (.Boolean b3, s3) →
      enforce_expression invokeF file_scope function_scope expected_types
        (.IfElse first second third) st =
        .ok (.Boolean (if b then b2 else b3), s3)) ∧
    (∀ b s1 i2 s2 i3 s3,
      enforce_expression invokeF file_scope function_scope [Type_.Boolean]
        first st = .ok (.Boolean b, s1) →
      enforce_expression invokeF file_scope function_scope expected_types
        second s1 = .ok (.Integer i2, s2) →
      enforce_expression invokeF file_scope function_scope expected_types
        third s2 = .ok (.Integer i3, s3) →
      enforce_expression invokeF file_scope function_scope expected_types
        (.IfElse first second third) st =
        .ok (.Integer (if b then i2 else i3), s3)) ∧
    (enforce_expression invokeF file_scope function_scope [Type_.IntegerType]
      (.IfElse (.Boolean true) (.Implicit "7") (.Implicit "9")) st =
      .ok (.Integer 7, st)) := by
  refine ⟨?_, ?_, ?_, ?_⟩
  · intro v s1 h1 hv
    simp only [enforce_expression, h1]
    try (cases v <;> first | exact absurd rfl (hv _) | rfl)
  · intro b s1 b2 s2 b3 s3 h1 h2 h3
    simp only [enforce_expression, h1, h2, h3, boolean_conditionally_select]
  · intro b s1 i2 s2 i3 s3 h1 h2 h3
    simp only [enforce_expression, h1, h2, h3, integer_conditionally_select]
  · simp [enforce_expression, enforce_number_implicit,
      ConstrainedValue.from_type, get_boolean_constant,
      integer_conditionally_select]

/-- C6 witness: the integer conditional-select conjunct instantiated at
concrete literal branches. -/
theorem C6_conditional_select_witness :
    enforce_expression invokeNone "f" "f" [Type_.IntegerType]
      (.IfElse (.Boolean true) (.Integer 7) (.Integer 9)) [] =
      .ok (.Integer 7, []) := by
  have h := (C6_conditional_select invokeNone "f" "f" [Type_.IntegerType]
      (.Boolean true) (.Integer 7) (.Integer 9) []).2.2.1 true [] 7 [] 9 []
    (by simp [enforce_expression, get_boolean_constant])
    (by simp [enforce_expression, get_integer_constant])
    (by simp [enforce_expression, get_integer_constant])
  simpa using h

/-- C7: an array spread looks its identifier up in function scope only; a
bound array is spliced in place preserving order, so the literal
`[...xs, y]` evaluates to `xs ++ [y]`; a bound non-array is
`InvalidSpread`; an unbound name is `UndefinedArray`. -/
theorem C7_array_spread (invokeF : InvokeFunction)
    (file_scope function_scope : String) (xs : Identifier) (st : Store) :
    (∀ (y : Expression) (arr : List ConstrainedValue) v s1,
      storeGet st (new_scope_from_variable function_scope xs) =
        some (.Array arr) →
      enforce_expression invokeF file_scope function_scope [] y st =
        .ok (v, s1) →
      enforce_expression invokeF file_scope function_scope []
        (.Array [.Spread (.Identifier xs), .Expression y]) st =
        .ok (.Array (arr ++ [v]), s1)) ∧
    (∀ (w : ConstrainedValue) (rest : List SpreadOrExpression),
      storeGet st (new_scope_from_variable function_scope xs) = some w →
      (∀ a, w ≠ .Array a) →
      enforce_expression invokeF file_scope function_scope []
        (.Array (.Spread (.Identifier xs) :: rest)) st =
        .error (.InvalidSpread (valToString w))) ∧
    (∀ (rest : List SpreadOrExpression),
      storeGet st (new_scope_from_variable function_scope xs) = none →
      enforce_expression invokeF file_scope function_scope []
        (.Array (.Spread (.Identifier xs) :: rest)) st =
        .error (.UndefinedArray xs.name)) := by
  refine ⟨?_, ?_, ?_⟩
  · intro y arr v s1 h1 h2
    simp [enforce_expression, enforce_array_elements, h1, h2]
  · intro w rest h1 hw
    simp only [enforce_expression, enforce_array_elements, h1]
    try (cases w <;> first | exact absurd rfl (hw _) | rfl)
  · intro rest h1
    simp [enforce_expression, enforce_array_elements, h1]

/-- C7 witness: the splice conjunct instantiated at a two-element bound
array and an integer literal tail element. -/
theorem C7_array_spread_witness :
    enforce_expression invokeNone "file" "fn" []
      (.Array [.Spread (.Identifier ⟨"xs"⟩), .Expression (.Integer 3)])
      [("fn.xs", .Array [.Integer 1, .Integer 2])] =
      .ok (.Array [.Integer 1, .Integer 2, .Integer 3],
        [("fn.xs", .Array [.Integer 1, .Integer 2])]) := by
  have h := (C7_array_spread invokeNone "file" "fn" ⟨"xs"⟩
      [("fn.xs", .Array [.Integer 1, .Integer 2])]).1 (.Integer 3)
      [.Integer 1, .Integer 2] (.Integer 3)
      [("fn.xs", .Array [.Integer 1, .Integer 2])]
      (by rfl) (by simp [enforce_expression, get_integer_constant])
  simpa using h

/-- C8: when the callee resolves to a `Function` value the delegated
invocation result is unwrapped as follows — a `Return` envelope with
exactly one value yields that value, an envelope with two or more values is
returned as-is, any non-`Return` result is `FunctionDidNotReturn` — and a
non-`Function` callee is `UndefinedFunction` for every invoker. -/
theorem C8_call_envelope (invokeF : InvokeFunction)
    (file_scope function_scope : String) (expected_types : List Type_)
    (function : Expression) (arguments : List Expression) (st : Store) :
    (∀ cid f s1 v s2,
      enforce_expression invokeF file_scope function_scope expected_types
        function st = .ok (.Function cid f, s1) →
      invokeF (function_outer_scope file_scope cid) function_scope f
        arguments s1 = .ok (.Return [v], s2) →
      enforce_expression invokeF file_scope function_scope expected_types
        (.FunctionCall function arguments) st = .ok (v, s2)) ∧
    (∀ cid f s1 vs s2,
      enforce_expression invokeF file_scope function_scope expected_types
        function st = .ok (.Function cid f, s1) →
      invokeF (function_outer_scope file_scope cid) function_scope f
        arguments s1 = .ok (.Return vs, s2) →
      2 ≤ vs.length →
      enforce_expression invokeF file_scope function_scope expected_types
        (.FunctionCall function arguments) st = .ok (.Return vs, s2)) ∧
    (∀ cid f s1 w s2,
      enforce_expression invokeF file_scope function_scope expected_types
        function st = .ok (.Function cid f, s1) →
      invokeF (function_outer_scope file_scope cid) function_scope f
        arguments s1 = .ok (w, s2) →
      (∀ vs, w ≠ .Return vs) →
      enforce_expression invokeF file_scope function_scope expected_types
        (.FunctionCall function arguments) st =
        .error (.FunctionDidNotReturn (exprToString function))) ∧
    (∀ v s1,
      enforce_expression invokeF file_scope function_scope expected_types
        function st = .ok (v, s1) →
      (∀ cid f, v ≠ .Function cid f) →
      enforce_expression invokeF file_scope function_scope expected_types
        (.FunctionCall function arguments) st =
        .error (.UndefinedFunction (valToString v))) := by
  refine ⟨?_, ?_, ?_, ?_⟩
  · intro cid f s1 v s2 h1 h2
    simp only [enforce_expression, enforce_function_call_result, h1, h2]
  · intro cid f s1 vs s2 h1 h2 hlen
    cases vs with
    | nil => simp at hlen
    | cons v1 t =>
      cases t with
      | nil => simp at hlen
      | cons v2 rest =>
        simp only [enforce_expression, enforce_function_call_result, h1, h2]
  · intro cid f s1 w s2 h1 h2 hw
    simp only [enforce_expression, enforce_function_call_result, h1, h2]
    try (cases w <;> first | exact absurd rfl (hw _) | rfl)
  · intro v s1 h1 hv
    simp only [enforce_expression, enforce_function_call_result, h1]
    try (cases v <;> first | exact absurd rfl (hv _) | rfl)

/-- C8 witness: the single-value unwrap conjunct instantiated with an
invoker that returns `Return([Integer 42])` on a stored plain function. -/
theorem C8_call_envelope_witness :
    enforce_expression invokeOne "file" "fn" []
      (.FunctionCall (.Identifier ⟨"f"⟩) []) [("fn.f", .Function none ⟨⟨"f"⟩⟩)] =
      .ok (.Integer 42, [("fn.f", .Function none ⟨⟨"f"⟩⟩)]) :=
  (C8_call_envelope invokeOne "file" "fn" [] (.Identifier ⟨"f"⟩) []
      [("fn.f", .Function none ⟨⟨"f"⟩⟩)]).1 none ⟨⟨"f"⟩⟩
    [("fn.f", .Function none ⟨⟨"f"⟩⟩)] (.Integer 42)
    [("fn.f", .Function none ⟨⟨"f"⟩⟩)]
    (by
      have hg : storeGet [("fn.f", .Function none ⟨⟨"f"⟩⟩)]
          (new_scope "fn" "f") = some (.Function none ⟨⟨"f"⟩⟩) := by rfl
      simp [enforce_expression, evaluate_identifier, hg])
    (by rfl)

/-- C10: an empty `Return` envelope from the invoked function passes
through the call evaluator unchanged; only a singleton envelope is
unwrapped, and `Return([])` is not `FunctionDidNotReturn`. -/
theorem C10_empty_return_passthrough (invokeF : InvokeFunction)
    (file_scope function_scope : String) (expected_types : List Type_)
    (function : Expression) (arguments : List Expression) (st : Store)
    (cid : Option Identifier) (f : Function_) (s1 s2 : Store)
    (h1 : enforce_expression invokeF file_scope function_scope expected_types
        function st = .ok (.Function cid f, s1))
    (h2 : invokeF (function_outer_scope file_scope cid) function_scope f
        arguments s1 = .ok (.Return [], s2)) :
    enforce_expression invokeF file_scope function_scope expected_types
      (.FunctionCall function arguments) st = .ok (.Return [], s2) := by
  simp only [enforce_expression, enforce_function_call_result, h1, h2]

/-- C10 witness: the pass-through instantiated with an invoker that
produces an empty `Return` envelope. -/
theorem C10_empty_return_passthrough_witness :
    enforce_expression invokeEmptyReturn "file" "fn" []
      (.FunctionCall (.Identifier ⟨"f"⟩) [])
      [("fn.f", .Function none ⟨⟨"f"⟩⟩)] =
      .ok (.Return [], [("fn.f", .Function none ⟨⟨"f"⟩⟩)]) :=
  C10_empty_return_passthrough invokeEmptyReturn "file" "fn" []
    (.Identifier ⟨"f"⟩) [] [("fn.f", .Function none ⟨⟨"f"⟩⟩)] none ⟨⟨"f"⟩⟩
    [("fn.f", .Function none ⟨⟨"f"⟩⟩)] [("fn.f", .Function none ⟨⟨"f"⟩⟩)]
    (by
      have hg : storeGet [("fn.f", .Function none ⟨⟨"f"⟩⟩)]
          (new_scope "fn" "f") = some (.Function none ⟨⟨"f"⟩⟩) := by rfl
      simp [enforce_expression, evaluate_identifier, hg])
    (by rfl)

/-- C9: when instance member access matches a member that is not a plain
`Function` value — a data field or a `Static`-wrapped function — the access
returns the bound member value and leaves the scope store exactly as it was
after evaluating the accessed circuit expression. -/
theorem C9_instance_access_frame (invokeF : InvokeFunction)
    (file_scope function_scope : String) (expected_types : List Type_)
    (circuit_identifier : Expression) (circuit_member : Identifier)
    (st : Store) (name : Identifier)
    (members : List (Identifier × ConstrainedValue))
    (mem : Identifier × ConstrainedValue) (s1 : Store)
    (h1 : enforce_expression invokeF file_scope function_scope expected_types
        circuit_identifier st = .ok (.CircuitExpression name members, s1))
    (h2 : members.find? (fun member => member.1 == circuit_member) = some mem)
    (h3 : ∀ c f, mem.2 ≠ .Function c f) :
    enforce_expression invokeF file_scope function_scope expected_types
      (.CircuitMemberAccess circuit_identifier circuit_member) st =
      .ok (mem.2, s1) := by
  obtain ⟨mid, mval⟩ := mem
  simp only [enforce_expression, h1, circuit_access_match, h2]
  try (cases mval <;> first | exact absurd rfl (h3 _ _) | rfl)

/-- C9 witness: accessing a data field of a stored circuit value returns
the field and the store is unchanged. -/
theorem C9_instance_access_frame_witness :
    enforce_expression invokeNone "file" "fn" []
      (.CircuitMemberAccess (.Identifier ⟨"p"⟩) ⟨"x"⟩)
      [("fn.p", .CircuitExpression ⟨"Point"⟩ [(⟨"x"⟩, .Integer 3)])] =
      .ok (.Integer 3,
        [("fn.p", .CircuitExpression ⟨"Point"⟩ [(⟨"x"⟩, .Integer 3)])]) :=
  C9_instance_access_frame invokeNone "file" "fn" [] (.Identifier ⟨"p"⟩)
    ⟨"x"⟩ [("fn.p", .CircuitExpression ⟨"Point"⟩ [(⟨"x"⟩, .Integer 3)])]
    ⟨"Point"⟩ [(⟨"x"⟩, .Integer 3)] (⟨"x"⟩, .Integer 3)
    [("fn.p", .CircuitExpression ⟨"Point"⟩ [(⟨"x"⟩, .Integer 3)])]
    (by
      have hg : storeGet
          [("fn.p", .CircuitExpression ⟨"Point"⟩ [(⟨"x"⟩, .Integer 3)])]
          (new_scope "fn" "p") =
          some (.CircuitExpression ⟨"Point"⟩ [(⟨"x"⟩, .Integer 3)]) := by rfl
      simp [enforce_expression, evaluate_identifier, hg])
    (by rfl)
    (fun _ _ h => ConstrainedValue.noConfusion h)

/-- C1: the source initialises `expected_dimensions` as an empty list and
never fills it, so the length check is dead code — an array literal of
length 3 under the explicit expected type `u32[2]` succeeds with the three
evaluated elements instead of failing with `InvalidLength(2, 3)`. -/
theorem C1_dimension_check_dead :
    enforce_expression invokeNone "file" "fn"
      [Type_.Array .IntegerType [2]]
      (.Array [.Expression (.Implicit "1"), .Expression (.Implicit "2"),
        .Expression (.Implicit "3")]) [] =
      .ok (.Array [.Integer 1, .Integer 2, .Integer 3], []) := by
  simp [enforce_expression, enforce_array_elements, enforce_number_implicit,
    Type_.inner_dimension, ConstrainedValue.from_type]

/-- C2: the static-access search tests only the static flag and ignores the
accessed member name — accessing `Foo::create` when the only static
function is `new` returns that function instead of
`UndefinedStaticFunction`, and accessing the existing non-static member
`Bar::make` by name yields `UndefinedStaticFunction` instead of
`InvalidStaticFunction`, whose rejection branch is unreachable. -/
theorem C2_static_access_ignores_name :
    enforce_expression invokeNone "file" "fn" []
      (.CircuitStaticFunctionAccess (.Identifier ⟨"Foo"⟩) ⟨"create"⟩)
      [("file.Foo",
        .CircuitDefinition ⟨⟨"Foo"⟩, [.CircuitFunction true ⟨⟨"new"⟩⟩]⟩)] =
      .ok (.Function (some ⟨"Foo"⟩) ⟨⟨"new"⟩⟩,
        [("file.Foo",
          .CircuitDefinition ⟨⟨"Foo"⟩, [.CircuitFunction true ⟨⟨"new"⟩⟩]⟩)]) ∧
    enforce_expression invokeNone "file" "fn" []
      (.CircuitStaticFunctionAccess (.Identifier ⟨"Bar"⟩) ⟨"make"⟩)
      [("file.Bar",
        .CircuitDefinition ⟨⟨"Bar"⟩, [.CircuitFunction false ⟨⟨"make"⟩⟩]⟩)] =
      .error (.UndefinedStaticFunction "Bar" "make") := by
  constructor <;>
    simp [enforce_expression, circuit_static_match, evaluate_identifier,
      storeGet, new_scope, List.lookup, List.find?]

end Leo
